import Mathlib

/-!
# eve_sde: the SDE synchronisation pipeline of `main.go`

A shallow embedding of `main.go`.  Go strings are byte sequences, Go errors are
values carrying their message, and everything outside the process (the HTTP
server, the MySQL server, the file system, the `mysql` client run through
`bash`) is an explicit argument of the function that talks to it.
-/

namespace EveSDE

/-! ## Go strings and errors -/

/-- A Go `string`: an immutable sequence of bytes. -/
abbrev GoString := List UInt8

/-- The bytes of an ASCII literal of the source. -/
def bytes (s : String) : GoString := s.toList.map (fun c => c.toNat.toUInt8)

/-- A non-nil Go `error`; `msg` is what `err.Error()` returns.  A nil error is
`none : Option GoError`. -/
structure GoError where
  msg : GoString
deriving DecidableEq

deriving instance DecidableEq for Except

/-- Worker of `Split`: walks the string once; `skip` counts the bytes of a
separator occurrence that still have to be passed over. -/
def splitFrom (sep : GoString) : Nat → GoString → List GoString
  | _, [] => [[]]
  | skip + 1, _ :: rest => splitFrom sep skip rest
  | 0, c :: rest =>
    if sep.isPrefixOf (c :: rest) then
      [] :: splitFrom sep (sep.length - 1) rest
    else
      match splitFrom sep 0 rest with
      | x :: xs => (c :: x) :: xs
      | [] => [[c]]

/-- Go `strings.Split(s, sep)` for a non-empty `sep`: the substrings of `s`
between the successive non-overlapping occurrences of `sep`, found left to
right; `[s]` when `sep` does not occur. -/
def Split (s sep : GoString) : List GoString := splitFrom sep 0 s

/-- Go `strings.Contains(s, substr)`: `substr` occurs somewhere in `s`. -/
def Contains (s substr : GoString) : Bool :=
  s.tails.any (fun t => substr.isPrefixOf t)

/-! ## The HTTP client -/

/-- An `*http.Response` as far as `main.go` looks at it.  `Body` is what
`ioutil.ReadAll(resp.Body)` yields: the whole body, or a read error. -/
structure Response where
  StatusCode : Nat
  Body : Except GoError GoString

/-- The pair `(resp, err)` of `client.Get(url)`.  The Go client reports an
error only when no HTTP response could be obtained (connection, timeout,
redirect policy); a response with any status code, 2xx or not, comes back
with a nil error. -/
inductive GetResult where
  | failed (err : GoError)
  | response (resp : Response)

/-- `getLatestHash` (main.go 114-129); `get` is the outcome of
`client.Get(HashMD5URL)`. -/
def getLatestHash (get : GetResult) : GoString × Option GoError :=
  match get with
  | .failed err => ([], some err)
  | .response resp =>
    match resp.Body with
    | .error err => ([], some err)
    | .ok body =>
      let hash := (Split body (bytes " ")).headD []
      (hash, none)

/-- Whitespace in the sense of the specification: space, tab, carriage
return, newline. -/
def isSpace (b : UInt8) : Bool := b == 32 || b == 9 || b == 13 || b == 10

/-- The first whitespace-delimited token of a body, as the specification words
it: skip the leading whitespace, then take the maximal run of non-whitespace
bytes. -/
def firstToken (body : GoString) : GoString :=
  (body.dropWhile isSpace).takeWhile (fun b => !isSpace b)

/-! ## The MySQL connection -/

/-- What the process can observe of the MySQL server behind `conn`.
`table` is the marker table `SDE_HASH`: absent, or its rows in the order the
server scans them (a row holds one nullable `varchar`, NULL being `none`).
`faults` scripts the coming round trips: every statement sent to the server
consumes the head of the list, and `some e` makes that statement fail with `e`
(connection lost, access denied, ...) without touching the table. -/
structure DB where
  table : Option (List (Option GoString))
  faults : List (Option GoError)
deriving DecidableEq

/-- The fault, if any, of the next round trip, and the connection after it. -/
def DB.roundTrip (db : DB) : Option GoError × DB :=
  match db.faults with
  | [] => (none, db)
  | f :: rest => (f, { db with faults := rest })

/-- MySQL error 1146 as the driver words it. -/
def errNoSuchTable : GoError :=
  ⟨bytes "Error 1146: Table 'sde.SDE_HASH' doesn't exist"⟩

/-- MySQL error 1054 as the driver words it: the server reads `$1` as the name
of a column. -/
def errUnknownColumn : GoError :=
  ⟨bytes "Error 1054: Unknown column '$1' in 'field list'"⟩

/-- MySQL error 1050 as the driver words it. -/
def errTableExists : GoError :=
  ⟨bytes "Error 1050: Table 'SDE_HASH' already exists"⟩

/-- The error of `rows.Scan(&stored)` on a NULL column. -/
def errScanNull : GoError :=
  ⟨bytes "sql: Scan error on column index 0, name \"hash\": converting NULL to string is unsupported"⟩

/-- `db.Prepare("SELECT hash from SDE_HASH LIMIT 1")`: the statement is
prepared on the server, which rejects it when the table is missing. -/
def DB.Prepare (db : DB) : Except GoError Unit × DB :=
  match db.roundTrip with
  | (some e, db1) => (.error e, db1)
  | (none, db1) =>
    match db1.table with
    | none => (.error errNoSuchTable, db1)
    | some _ => (.ok (), db1)

/-- `statement.Query()` on the prepared SELECT: the rows that `rows.Next()`
will deliver, at most one because of `LIMIT 1`. -/
def DB.Query (db : DB) : Except GoError (List (Option GoString)) × DB :=
  match db.roundTrip with
  | (some e, db1) => (.error e, db1)
  | (none, db1) =>
    match db1.table with
    | none => (.error errNoSuchTable, db1)
    | some rows => (.ok (rows.take 1), db1)

/-- The three statements `updateStoredHash` sends through `db.Exec`. -/
inductive Stmt where
  /-- `DROP TABLE IF EXISTS SDE_HASH` -/
  | dropIfExists
  /-- `CREATE TABLE SDE_HASH(hash varchar(255))` -/
  | createTable
  /-- `INSERT INTO SDE_HASH (hash) VALUES ($1)`, sent with the argument
  `hash`.  The parameter marker of MySQL is `?`; `$1` is none. -/
  | insert (hash : GoString)

/-- `db.Exec(stmt)`: the returned error and the connection afterwards.  DROP
and CREATE, when the server accepts them, have their SQL effect on the marker
table.  The INSERT is never accepted: its text holds no parameter marker for
the argument passed with it, and the server takes `$1` for a column the table
does not have; the table is left as it is. -/
def DB.Exec (db : DB) (stmt : Stmt) : Option GoError × DB :=
  match db.roundTrip with
  | (some e, db1) => (some e, db1)
  | (none, db1) =>
    match stmt, db1.table with
    | .dropIfExists, _ => (none, { db1 with table := none })
    | .createTable, none => (none, { db1 with table := some [] })
    | .createTable, some _ => (some errTableExists, db1)
    | .insert _, some _ => (some errUnknownColumn, db1)
    | .insert _, none => (some errNoSuchTable, db1)

/-- The loop `for rows.Next() { err = rows.Scan(&stored) }` (main.go 149-151)
on the variables `(stored, err)`: a row that scans sets `stored` and clears
`err`, a NULL leaves `stored` and sets `err`. -/
def scanRows : List (Option GoString) → GoString × Option GoError → GoString × Option GoError
  | [], st => st
  | some v :: rest, _ => scanRows rest (v, none)
  | none :: rest, (stored, _) => scanRows rest (stored, some errScanNull)

/-- `getStoredHash` (main.go 131-159). -/
def getStoredHash (db : DB) : (GoString × Option GoError) × DB :=
  match db.Prepare with
  | (.error err, db1) =>
    if Contains err.msg (bytes "Table") && Contains err.msg (bytes "doesn't exist") then
      (([], none), db1)
    else
      (([], some err), db1)
  | (.ok (), db1) =>
    match db1.Query with
    | (.error _, db2) => (([], none), db2)
    | (.ok rows, db2) =>
      let (stored, err) := scanRows rows ([], none)
      if err.isSome then
        (([], none), db2)
      else
        ((stored, none), db2)

/-- `updateStoredHash` (main.go 231-251). -/
def updateStoredHash (db : DB) (hash : GoString) : Option GoError × DB :=
  match db.Exec .dropIfExists with
  | (some err, db1) => (some err, db1)
  | (none, db1) =>
    match db1.Exec .createTable with
    | (some err, db2) => (some err, db2)
    | (none, db2) =>
      match db2.Exec (.insert hash) with
      | (some err, db3) => (some err, db3)
      | (none, db3) => (none, db3)

/-! ## Files, readers and the buffered writer -/

/-- `io.ErrShortWrite`. -/
def errShortWrite : GoError := ⟨bytes "short write"⟩

/-- `io.ErrNoProgress`. -/
def errNoProgress : GoError := ⟨bytes "multiple Read calls return no data or error"⟩

/-- The error of a write to a full device. -/
def errNoSpace : GoError := ⟨bytes "write sde_dump.sql: no space left on device"⟩

/-- An `*os.File` open for writing.  `data` is what the file holds, `room` the
number of bytes the device still takes (`none`: no limit), and `hasReadFrom`
tells whether `*os.File` has the method `ReadFrom`, which depends on the Go
release the program is built with (it has from Go 1.15 on). -/
structure File where
  data : List UInt8
  room : Option Nat
  hasReadFrom : Bool
deriving DecidableEq

/-- `f.Write(p)`: the pair `(n, err)` and the file afterwards.  A write that
does not fit writes what fits and fails. -/
def File.Write (f : File) (p : List UInt8) : (Nat × Option GoError) × File :=
  match f.room with
  | none => ((p.length, none), { f with data := f.data ++ p })
  | some r =>
    if p.length ≤ r then
      ((p.length, none), { f with data := f.data ++ p, room := some (r - p.length) })
    else
      ((r, some errNoSpace), { f with data := f.data ++ p.take r, room := some 0 })

/-- The third component of a `Read` result `(n, err)`. -/
inductive ReadErr where
  | nil
  | EOF
  | other (err : GoError)
deriving DecidableEq

/-- An `io.Reader`.  `chunks` are the pieces of data still to come, in the
sizes the reader would deliver them to a caller with enough room, and `final`
is how the stream ends: `none` for `io.EOF`, `some e` for an error (a failed
read of the underlying file, or corrupt bzip2 data). -/
structure Reader where
  chunks : List (List UInt8)
  final : Option GoError
deriving DecidableEq

/-- All the data a reader still holds. -/
def Reader.pending (r : Reader) : List UInt8 := r.chunks.flatten

/-- The chunks after a `Read` into `cap` bytes, and the bytes it delivers: the
next non-empty chunk, or its first `cap` bytes when it is longer. -/
def readChunks : List (List UInt8) → Nat → List UInt8 × List (List UInt8)
  | [], _ => ([], [])
  | [] :: rest, cap => readChunks rest cap
  | (c :: cs) :: rest, cap =>
    if (c :: cs).length ≤ cap then ((c :: cs), rest)
    else ((c :: cs).take cap, (c :: cs).drop cap :: rest)

/-- `r.Read(p)` with `len(p) = cap`: the bytes read, the error, the reader
afterwards.  Data and the final error come in separate calls. -/
def Reader.Read (r : Reader) (cap : Nat) : (List UInt8 × ReadErr) × Reader :=
  match readChunks r.chunks cap with
  | ([], rest) =>
    if rest.flatten.length = 0 then
      match r.final with
      | none => (([], .EOF), { r with chunks := [] })
      | some e => (([], .other e), { r with chunks := [] })
    else
      (([], .nil), { r with chunks := rest })
  | (p, rest) => ((p, .nil), { r with chunks := rest })

/-- The loop of `io.Copy` when neither side offers a shortcut: read up to 32 KiB,
write it, until a read or a write fails or the reader is at its end.  `n` is
`written`; `fuel` bounds the number of rounds. -/
def copyLoop : Nat → File → Reader → Nat → (Nat × Option GoError) × File
  | 0, dst, _, n => ((n, some errNoProgress), dst)
  | fuel + 1, dst, src, n =>
    match src.Read 32768 with
    | ((p, er), src1) =>
      match (if p.length > 0 then dst.Write p else ((0, none), dst)) with
      | ((nw, ew), dst1) =>
        match ew with
        | some e => ((n + nw, some e), dst1)
        | none =>
          if p.length ≠ nw then ((n + nw, some errShortWrite), dst1)
          else
            match er with
            | .nil => copyLoop fuel dst1 src1 (n + nw)
            | .EOF => ((n + nw, none), dst1)
            | .other e => ((n + nw, some e), dst1)

/-- `dst.ReadFrom(src)` for a source that is not a file, and equally
`io.Copy(dst, src)` into a file that has no `ReadFrom`: the plain copy loop.
Every round of the loop but the last takes at least one byte from the reader,
so the fuel given is enough. -/
def File.ReadFrom (dst : File) (src : Reader) : (Nat × Option GoError) × File :=
  copyLoop (src.pending.length + 1) dst src 0

/-- A `*bufio.Writer`: `buf` is the buffered data `b.buf[0:b.n]`, `size` is
`len(b.buf)`, `wr` the underlying writer, `err` the sticky error. -/
structure Writer where
  buf : List UInt8
  size : Nat
  wr : File
  err : Option GoError
deriving DecidableEq

/-- `bufio.NewWriter(w)`: a writer with the default buffer of 4096 bytes. -/
def NewWriter (w : File) : Writer := ⟨[], 4096, w, none⟩

/-- `b.Available()`. -/
def Writer.Available (b : Writer) : Nat := b.size - b.buf.length

/-- `b.Buffered()`. -/
def Writer.Buffered (b : Writer) : Nat := b.buf.length

/-- `b.Flush()`: hands the buffered data to the underlying writer. -/
def Writer.Flush (b : Writer) : Option GoError × Writer :=
  match b.err with
  | some e => (some e, b)
  | none =>
    if b.buf.length = 0 then (none, b)
    else
      match b.wr.Write b.buf with
      | ((n, err), wr1) =>
        let err1 := if n < b.buf.length && err.isNone then some errShortWrite else err
        match err1 with
        | some e => (some e, { b with buf := b.buf.drop n, wr := wr1, err := some e })
        | none => (none, { b with buf := [], wr := wr1 })

/-- The loop of `(*bufio.Writer).ReadFrom`: flush when the buffer is full, then
read into the free part of the buffer.  `n` counts the bytes read; `fuel`
bounds the number of rounds. -/
def fillLoop : Nat → Writer → Reader → Nat → (Nat × Option GoError) × Writer
  | 0, b, _, n => ((n, some errNoProgress), b)
  | fuel + 1, b, r, n =>
    match (if b.Available = 0 then b.Flush else (none, b)) with
    | (some e, b1) => ((n, some e), b1)
    | (none, b1) =>
      match r.Read b1.Available with
      | ((p, er), r1) =>
        let b2 := { b1 with buf := b1.buf ++ p }
        match er with
        | .nil => fillLoop fuel b2 r1 (n + p.length)
        | .other e => ((n + p.length, some e), b2)
        | .EOF =>
          if b2.Available = 0 then
            match b2.Flush with
            | (e, b3) => ((n + p.length, e), b3)
          else ((n + p.length, none), b2)

/-- `b.ReadFrom(r)`.  With an empty buffer over a writer that has `ReadFrom`
itself, the call is passed on and the data goes to that writer unbuffered;
otherwise the data is read into the buffer. -/
def Writer.ReadFrom (b : Writer) (r : Reader) : (Nat × Option GoError) × Writer :=
  match b.err with
  | some e => ((0, some e), b)
  | none =>
    if b.Buffered = 0 && b.wr.hasReadFrom then
      match b.wr.ReadFrom r with
      | ((n, err), wr1) => ((n, err), { b with wr := wr1, err := err })
    else
      fillLoop (r.pending.length + 1) b r 0

/-- `io.Copy(dst, src)` into a `*bufio.Writer`: as the source reader has no
`WriteTo`, it is `dst.ReadFrom(src)`. -/
def Copy (dst : Writer) (src : Reader) : (Nat × Option GoError) × Writer :=
  dst.ReadFrom src

/-! ## Download and decompression -/

/-- What `downloadSDE` meets outside the process. -/
structure DownloadEnv where
  /-- the error of `client.Get(HashURL)`, if no response came -/
  getErr : Option GoError
  /-- the error of `os.Create(SDETempFileCompressed)` -/
  createErr : Option GoError
  /-- the response body -/
  body : Reader
  /-- the room on the device -/
  room : Option Nat

/-- `downloadSDE` (main.go 161-181).  The status code of the response is not
looked at; `io.Copy(out, resp.Body)` is the plain copy loop whether or not the
file has `ReadFrom`. -/
def downloadSDE (env : DownloadEnv) : Nat × Option GoError :=
  match env.getErr with
  | some err => (0, some err)
  | none =>
    match env.createErr with
    | some err => (0, some err)
    | none =>
      match File.ReadFrom ⟨[], env.room, true⟩ env.body with
      | ((_, some err), _) => (0, some err)
      | ((b, none), _) => (b, none)

/-- What `decompressSDE` meets outside the process. -/
structure DecompressEnv where
  /-- the error of `os.Open(SDETempFileCompressed)` -/
  openErr : Option GoError
  /-- the error of `f.Stat()` -/
  statErr : Option GoError
  /-- the error of `os.Create(SDETempFile)` -/
  createErr : Option GoError
  /-- the bzip2 reader `cr` over the compressed file: the decompressed data -/
  cr : Reader
  /-- the room on the device -/
  room : Option Nat
  /-- whether `*os.File` has `ReadFrom` in the Go release used -/
  fileReadFrom : Bool

/-- What `decompressSDE` returns and leaves behind.  `failed err`: it returned
`err` before copying anything.  `done logged sdeFile`: it returned nil after
the copy, having logged "Wrote `logged` bytes to uncompressed file", and
`sdeFile` is the content of `sde_dump.sql` once the deferred `out.Close()`
has run. -/
inductive Decompressed where
  | failed (err : GoError)
  | done (logged : Nat) (sdeFile : List UInt8)
deriving DecidableEq

/-- The error `decompressSDE` returns. -/
def Decompressed.err : Decompressed → Option GoError
  | .failed err => some err
  | .done _ _ => none

/-- `decompressSDE` (main.go 183-220).  The progress bar only counts the bytes
read from the compressed file and is left out.  The error of `io.Copy` is
assigned and not looked at, `bw` is never flushed, and closing `out` writes
nothing. -/
def decompressSDE (env : DecompressEnv) : Decompressed :=
  match env.openErr with
  | some err => .failed err
  | none =>
    match env.statErr with
    | some err => .failed err
    | none =>
      match env.createErr with
      | some err => .failed err
      | none =>
        let out : File := ⟨[], env.room, env.fileReadFrom⟩
        let bw := NewWriter out
        match Copy bw env.cr with
        | ((written, _), bw1) => .done written bw1.wr.data

/-! ## The loader and the driver -/

/-- The values `main` reads from the environment (main.go 35-45): address,
port (already parsed, 3306 when unset or not a number), user, password and
database name. -/
structure Config where
  mysqlAddress : GoString
  mysqlPort : Int
  mysqlUser : GoString
  mysqlPass : GoString
  mysqlDB : GoString

/-- The constant `SDETempFile`. -/
def SDETempFile : GoString := bytes "sde_dump.sql"

/-- The verb `%d` of `fmt.Sprintf` on an `int`. -/
def itoa (i : Int) : GoString := bytes (toString i)

/-- The command line `loadDatabaseIntoSDE` builds with `fmt.Sprintf`
(main.go 224). -/
def loadCommand (address : GoString) (port : Int) (user pass db : GoString) : GoString :=
  bytes "mysql -h " ++ address ++ bytes " -P " ++ itoa port ++ bytes " -u " ++ user
    ++ bytes " -p" ++ pass ++ bytes " --binary-mode --force " ++ db ++ bytes " < " ++ SDETempFile

/-- `loadDatabaseIntoSDE` (main.go 222-229): the returned error and the command
line it prints.  `bash` gives the error of `exec.Command("bash", "-c",
command).Output()`, non-nil when the command exits non-zero or cannot be
started. -/
def loadDatabaseIntoSDE (bash : GoString → Option GoError)
    (address : GoString) (port : Int) (user pass db : GoString) : Option GoError × GoString :=
  let command := loadCommand address port user pass db
  let err := bash command
  (err, command)

/-- The functions `main` calls. -/
inductive Stage where
  | getLatestHash
  | getStoredHash
  | downloadSDE
  | decompressSDE
  | loadDatabaseIntoSDE
  | updateStoredHash (hash : GoString)
deriving DecidableEq

/-- What a run of `main` does, in order: the lines it logs, the calls it makes
and what they return, and the fatal exit. -/
inductive Event where
  /-- "Connecting to DB" -/
  | logConnecting
  /-- "Getting hash from fuzzworks" -/
  | logGettingHash
  /-- "Fuzworks returned hash: %s" -/
  | logReturnedHash (hash : GoString)
  /-- "Stored hash: %s" -/
  | logStoredHash (stored : GoString)
  /-- "SDE is already up to date" -/
  | logUpToDate
  /-- "Downloading SDE dump" -/
  | logDownloading
  /-- "Downloaded %d bytes" -/
  | logDownloaded (written : Nat)
  /-- "Decompressing dump" -/
  | logDecompressing
  /-- "Wrote %d bytes to uncompressed file" -/
  | logWrote (written : Nat)
  /-- "Executing mysql to load file into database" -/
  | logExecuting
  /-- "Executing command: %s" -/
  | printCommand (command : GoString)
  /-- a call of one of the stage functions -/
  | call (stage : Stage)
  /-- the error a stage function returns -/
  | ret (stage : Stage) (err : Option GoError)
  /-- `log.Fatalln(err)`, or `fmt.Println(err)` followed by `os.Exit(1)` -/
  | fatal (err : GoError)
deriving DecidableEq

/-- Everything outside the process during one run. -/
structure World where
  /-- the error of `sql.Open("mysql", uri)` -/
  sqlOpenErr : Option GoError
  /-- the outcome of `client.Get(HashMD5URL)` -/
  hashGet : GetResult
  /-- the database server behind `conn` -/
  db : DB
  /-- what the download meets -/
  download : DownloadEnv
  /-- what the decompression meets -/
  disk : DecompressEnv
  /-- the outcome of running a command line through `bash -c`; the dump it
  loads does not define the marker table -/
  bash : GoString → Option GoError

/-- The outcome of a run: the exit code of the process, what it did, and the
database server afterwards. -/
structure Run where
  exit : Nat
  trace : List Event
  db : DB

/-- `main` (main.go 33-112). -/
def main (cfg : Config) (w : World) : Run :=
  let t0 := [Event.logConnecting]
  match w.sqlOpenErr with
  | some err => ⟨1, t0 ++ [.fatal err], w.db⟩
  | none =>
    let t1 := t0 ++ [.logGettingHash, .call .getLatestHash]
    match getLatestHash w.hashGet with
    | (_, some err) => ⟨1, t1 ++ [.ret .getLatestHash (some err), .fatal err], w.db⟩
    | (hash, none) =>
      let t2 := t1 ++ [.ret .getLatestHash none, .logReturnedHash hash, .call .getStoredHash]
      match getStoredHash w.db with
      | ((_, some err), db1) => ⟨1, t2 ++ [.ret .getStoredHash (some err), .fatal err], db1⟩
      | ((stored, none), db1) =>
        let t3 := t2 ++ [.ret .getStoredHash none, .logStoredHash stored]
        if stored = hash then
          ⟨0, t3 ++ [.logUpToDate], db1⟩
        else
          let t4 := t3 ++ [.logDownloading, .call .downloadSDE]
          match downloadSDE w.download with
          | (_, some err) => ⟨1, t4 ++ [.ret .downloadSDE (some err), .fatal err], db1⟩
          | (written, none) =>
            let t5 := t4 ++ [.ret .downloadSDE none, .logDownloaded written,
              .logDecompressing, .call .decompressSDE]
            match decompressSDE w.disk with
            | .failed err => ⟨1, t5 ++ [.ret .decompressSDE (some err), .fatal err], db1⟩
            | .done logged _ =>
              let t6 := t5 ++ [.logWrote logged, .ret .decompressSDE none, .logExecuting,
                .call .loadDatabaseIntoSDE]
              match loadDatabaseIntoSDE w.bash cfg.mysqlAddress cfg.mysqlPort cfg.mysqlUser
                  cfg.mysqlPass cfg.mysqlDB with
              | (some err, command) =>
                ⟨1, t6 ++ [.printCommand command, .ret .loadDatabaseIntoSDE (some err),
                  .fatal err], db1⟩
              | (none, command) =>
                let t7 := t6 ++ [.printCommand command, .ret .loadDatabaseIntoSDE none,
                  .call (.updateStoredHash hash)]
                match updateStoredHash db1 hash with
                | (some err, db2) =>
                  ⟨1, t7 ++ [.ret (.updateStoredHash hash) (some err), .fatal err], db2⟩
                | (none, db2) => ⟨0, t7 ++ [.ret (.updateStoredHash hash) none], db2⟩

/-- The stage functions a trace calls, in order. -/
def calls (trace : List Event) : List Stage :=
  trace.filterMap (fun e => match e with
    | .call s => some s
    | _ => none)

/-- The event "`loadDatabaseIntoSDE` returned nil". -/
def isLoadOk : Event → Bool
  | .ret .loadDatabaseIntoSDE none => true
  | _ => false

/-- The events "`updateStoredHash` is called". -/
def isUpdateCall : Event → Bool
  | .call (.updateStoredHash _) => true
  | _ => false

/-- Scans a trace: every call of `updateStoredHash` must come after a
successful return of `loadDatabaseIntoSDE`; `seen` tells whether one has been
passed. -/
def updateGuarded : Bool → List Event → Bool
  | _, [] => true
  | seen, e :: rest => (!isUpdateCall e || seen) && updateGuarded (seen || isLoadOk e) rest

/-! ## Sample runs -/

/-- The configuration `main` uses when the environment sets nothing. -/
def defaultConfig : Config :=
  ⟨bytes "127.0.0.1", 3306, bytes "root", bytes "password", bytes "sde"⟩

/-- The error of `Output()` when the `mysql` client exits with status 1. -/
def errExitStatus : GoError := ⟨bytes "exit status 1"⟩

/-- The error of a failed read of the compressed file. -/
def errReadInput : GoError := ⟨bytes "read sde_dump.sql.tar.bz2: input/output error"⟩

/-- The error of a refused connection. -/
def errConnRefused : GoError := ⟨bytes "dial tcp 127.0.0.1:3306: connect: connection refused"⟩

/-- A small dump, delivered by the decompressor in two reads. -/
def sampleDump : Reader := ⟨[bytes "CREATE TABLE t ", bytes "(id INT);\n"], none⟩

/-- A run in which the checksum file reads `remote`, the marker table is
`table`, the download and the decompression meet no failure, and the `mysql`
client ends with `loadErr`. -/
def sampleWorld (remote : String) (table : Option (List (Option GoString)))
    (loadErr : Option GoError) : World where
  sqlOpenErr := none
  hashGet := .response ⟨200, .ok (bytes remote)⟩
  db := ⟨table, []⟩
  download := ⟨none, none, ⟨[bytes "BZh91AY"], none⟩, none⟩
  disk := ⟨none, none, none, sampleDump, none, true⟩
  bash := fun _ => loadErr

/-- The run of `sampleWorld` with the decompression replaced by `disk`. -/
def sampleWorldOnDisk (disk : DecompressEnv) : World :=
  { sampleWorld "abc123  mysql-latest.tar.bz2\n" none none with disk := disk }

/-! ## Lemmas on strings -/

theorem splitFrom_ne_nil (sep : GoString) (k : Nat) (s : GoString) :
    splitFrom sep k s ≠ [] := by
  induction s generalizing k with
  | nil => cases k <;> simp [splitFrom]
  | cons c rest ih =>
    cases k with
    | succ k => simpa [splitFrom] using ih k
    | zero =>
      unfold splitFrom
      split
      · simp
      · split <;> simp

theorem head_Split_space (s : GoString) :
    (Split s (bytes " ")).headD [] = s.takeWhile (fun b => b != 32) := by
  have hsep : bytes " " = [32] := by decide
  unfold Split
  rw [hsep]
  induction s with
  | nil => simp [splitFrom]
  | cons c rest ih =>
    unfold splitFrom
    by_cases hc : c = 32
    · subst hc
      simp [List.isPrefixOf]
    · have h1 : ([32] : GoString).isPrefixOf (c :: rest) = false := by
        simp [List.isPrefixOf, Ne.symm hc]
      have h2 : (c != 32) = true := by simp [hc]
      rw [if_neg (by simp [h1]), List.takeWhile_cons, if_pos h2]
      cases hr : splitFrom [32] 0 rest with
      | nil => exact absurd hr (splitFrom_ne_nil _ _ _)
      | cons x xs =>
        rw [hr] at ih
        simp only [List.headD_cons] at ih ⊢
        rw [ih]

/-! ## Lemmas on traces -/

theorem isLoadOk_eq (e : Event) (h : isLoadOk e = true) :
    e = Event.ret .loadDatabaseIntoSDE none := by
  unfold isLoadOk at h
  split at h
  · rfl
  · simp at h

theorem updateGuarded_split (seen : Bool) (l pre post : List Event) (h : GoString)
    (hg : updateGuarded seen l = true) (hl : l = pre ++ Event.call (.updateStoredHash h) :: post) :
    seen = true ∨ Event.ret .loadDatabaseIntoSDE none ∈ pre := by
  induction pre generalizing seen l with
  | nil =>
    subst hl
    simp [updateGuarded, isUpdateCall] at hg
    exact Or.inl hg.1
  | cons e pre ih =>
    subst hl
    rw [List.cons_append] at hg
    simp only [updateGuarded, Bool.and_eq_true] at hg
    rcases ih (seen || isLoadOk e) _ hg.2 rfl with h1 | h1
    · simp only [Bool.or_eq_true] at h1
      rcases h1 with h1 | h1
      · exact Or.inl h1
      · exact Or.inr (by rw [isLoadOk_eq e h1]; exact List.mem_cons_self _ _)
    · exact Or.inr (List.mem_cons_of_mem _ h1)

theorem main_updateGuarded (cfg : Config) (w : World) :
    updateGuarded false (main cfg w).trace = true := by
  unfold main
  repeat' split
  all_goals simp [updateGuarded, isUpdateCall, isLoadOk]

/-! ## Lemmas on the connection -/

theorem roundTrip_table (db : DB) : db.roundTrip.2.table = db.table := by
  unfold DB.roundTrip
  split <;> rfl

theorem Prepare_table (db : DB) : db.Prepare.2.table = db.table := by
  have h := roundTrip_table db
  unfold DB.Prepare
  split
  · next e db1 heq => rw [heq] at h; exact h
  · next db1 heq =>
    rw [heq] at h
    split <;> exact h

theorem Query_table (db : DB) : db.Query.2.table = db.table := by
  have h := roundTrip_table db
  unfold DB.Query
  split
  · next e db1 heq => rw [heq] at h; exact h
  · next db1 heq =>
    rw [heq] at h
    split <;> exact h

theorem getStoredHash_table (db : DB) : (getStoredHash db).2.table = db.table := by
  have hp := Prepare_table db
  unfold getStoredHash
  split
  · next err db1 heq =>
    rw [heq] at hp
    split <;> exact hp
  · next db1 heq =>
    rw [heq] at hp
    have hq := Query_table db1
    split
    · next e db2 heq2 => rw [heq2] at hq; exact hq.trans hp
    · next rows db2 heq2 =>
      rw [heq2] at hq
      simp only []
      split <;> exact hq.trans hp

theorem roundTrip_no_fault (db : DB) (hf : ∀ f ∈ db.faults, f = none) :
    db.roundTrip.1 = none ∧ db.roundTrip.2.table = db.table ∧
    ∀ f ∈ db.roundTrip.2.faults, f = none := by
  unfold DB.roundTrip
  split
  · exact ⟨rfl, rfl, hf⟩
  · next f rest heq =>
    rw [heq] at hf
    exact ⟨hf f (List.mem_cons_self _ _), rfl, fun g hg => hf g (List.mem_cons_of_mem _ hg)⟩

theorem Query_rows (db : DB) (rows : List (Option GoString)) (h : db.Query.1 = .ok rows) :
    rows.length ≤ 1 := by
  unfold DB.Query at h
  split at h
  · simp at h
  · split at h
    · simp at h
    · simp only [Except.ok.injEq] at h
      rw [← h]
      simp [List.length_take]

theorem getStoredHash_read (db : DB) (h : GoString) (ht : db.table = some [some h])
    (hf : ∀ f ∈ db.faults, f = none) : (getStoredHash db).1 = (h, none) := by
  obtain ⟨h1, h2, h3⟩ := roundTrip_no_fault db hf
  obtain ⟨h4, h5, _⟩ := roundTrip_no_fault db.roundTrip.2 h3
  have hP : db.Prepare = (.ok (), db.roundTrip.2) := by
    unfold DB.Prepare
    rcases hr : db.roundTrip with ⟨f, db1⟩
    rw [hr] at h1 h2
    simp only at h1 h2
    subst h1
    simp [h2, ht]
  have hQ : db.roundTrip.2.Query = (.ok [some h], db.roundTrip.2.roundTrip.2) := by
    unfold DB.Query
    rcases hr : db.roundTrip.2.roundTrip with ⟨f, db1⟩
    rw [hr] at h4 h5
    simp only at h4 h5
    subst h4
    simp [h5, h2, ht]
  unfold getStoredHash
  rw [hP]
  simp only [hQ]
  simp [scanRows]

theorem getStoredHash_prepare_error (db : DB) (e : GoError) (h : db.Prepare.1 = .error e) :
    (getStoredHash db).1 =
      ([], if Contains e.msg (bytes "Table") && Contains e.msg (bytes "doesn't exist")
        then none else some e) := by
  unfold getStoredHash
  rcases hp : db.Prepare with ⟨r, db1⟩
  rw [hp] at h
  simp only at h
  subst h
  simp only
  split <;> rfl

theorem getStoredHash_query_error (db : DB) (e : GoError) (h : db.Prepare.1 = .ok ())
    (hq : db.Prepare.2.Query.1 = .error e) : (getStoredHash db).1 = ([], none) := by
  unfold getStoredHash
  rcases hp : db.Prepare with ⟨r, db1⟩
  rw [hp] at h hq
  simp only at h hq
  subst h
  simp only
  rcases hq2 : db1.Query with ⟨q, db2⟩
  rw [hq2] at hq
  simp only at hq
  subst hq
  rfl

theorem getStoredHash_rows (db : DB) (rows : List (Option GoString))
    (h : db.Prepare.1 = .ok ()) (hq : db.Prepare.2.Query.1 = .ok rows) :
    (getStoredHash db).1 =
      if (scanRows rows ([], none)).2.isSome then ([], none)
      else ((scanRows rows ([], none)).1, none) := by
  unfold getStoredHash
  rcases hp : db.Prepare with ⟨r, db1⟩
  rw [hp] at h hq
  simp only at h hq
  subst h
  simp only
  rcases hq2 : db1.Query with ⟨q, db2⟩
  rw [hq2] at hq
  simp only at hq
  subst hq
  simp only
  split <;> rfl

theorem Exec_drop (db : DB) (h : (db.Exec .dropIfExists).1 = none) :
    (db.Exec .dropIfExists).2.table = none := by
  rcases hr : db.roundTrip with ⟨f, db1⟩
  unfold DB.Exec at h ⊢
  simp only [hr] at h ⊢
  cases f <;> simp_all

theorem Exec_create (db : DB) (h : (db.Exec .createTable).1 = none) :
    (db.Exec .createTable).2.table = some [] := by
  rcases hr : db.roundTrip with ⟨f, db1⟩
  unfold DB.Exec at h ⊢
  simp only [hr] at h ⊢
  cases f <;> cases htab : db1.table <;> simp_all

theorem Exec_insert_refused (db : DB) (hash : GoString) :
    (db.Exec (.insert hash)).1 ≠ none ∧ (db.Exec (.insert hash)).2.table = db.table := by
  have ht := roundTrip_table db
  rcases hr : db.roundTrip with ⟨f, db1⟩
  rw [hr] at ht
  simp only at ht
  rw [← ht]
  clear ht
  unfold DB.Exec
  simp only [hr]
  cases f <;> cases htab : db1.table <;> simp_all

/-- `updateStoredHash` returns an error on every connection and for every
marker; when DROP and CREATE go through, what it leaves is an empty table. -/
theorem updateStoredHash_never_nil (db : DB) (hash : GoString) :
    (updateStoredHash db hash).1 ≠ none ∧
    ((db.Exec .dropIfExists).1 = none →
      ((db.Exec .dropIfExists).2.Exec .createTable).1 = none →
      (updateStoredHash db hash).2.table = some []) := by
  unfold updateStoredHash
  rcases h1 : db.Exec .dropIfExists with ⟨e1, db1⟩
  cases e1 with
  | some e => simp
  | none =>
    simp only
    rcases h2 : db1.Exec .createTable with ⟨e2, db2⟩
    cases e2 with
    | some e => simp
    | none =>
      have t2 : db2.table = some [] := by
        have := Exec_create db1 (by rw [h2])
        rwa [h2] at this
      obtain ⟨r1, r2⟩ := Exec_insert_refused db2 hash
      simp only
      rcases h3 : db2.Exec (.insert hash) with ⟨e3, db3⟩
      rw [h3] at r1 r2
      simp only at r1 r2
      cases e3 with
      | none => exact absurd rfl r1
      | some e =>
        simp only [ne_eq, not_false_eq_true, reduceCtorEq, true_and]
        intro _ _
        rw [r2, t2]

/-! ## Lemmas on readers and the buffered writer -/

theorem readChunks_spec (chunks : List (List UInt8)) (cap : Nat) (hcap : 0 < cap) :
    (readChunks chunks cap).1 ++ (readChunks chunks cap).2.flatten = chunks.flatten ∧
    (readChunks chunks cap).1.length ≤ cap ∧
    (chunks.flatten ≠ [] → (readChunks chunks cap).1 ≠ []) ∧
    (chunks.flatten = [] → readChunks chunks cap = ([], [])) := by
  induction chunks with
  | nil => simp [readChunks]
  | cons c rest ih =>
    cases c with
    | nil => simpa [readChunks] using ih
    | cons x xs =>
      unfold readChunks
      by_cases hle : (x :: xs).length ≤ cap
      · rw [if_pos hle]
        refine ⟨by simp, hle, by simp, by simp⟩
      · rw [if_neg hle]
        refine ⟨?_, ?_, ?_, ?_⟩
        · simp only [List.flatten_cons, ← List.append_assoc, List.take_append_drop]
        · simp [List.length_take]
        · intro _ h
          simp only at h
          have : ((x :: xs).take cap).length = 0 := by rw [h]; rfl
          rw [List.length_take] at this
          simp at this
          omega
        · intro h
          simp at h

theorem Read_eof (r : Reader) (cap : Nat) (hcap : 0 < cap) (hfin : r.final = none)
    (hp : r.pending = []) : r.Read cap = (([], .EOF), { r with chunks := [] }) := by
  have h := (readChunks_spec r.chunks cap hcap).2.2.2 hp
  unfold Reader.Read
  rw [h]
  simp [hfin]

theorem Read_data (r : Reader) (cap : Nat) (hcap : 0 < cap) (hp : r.pending ≠ []) :
    ∃ p r1, r.Read cap = ((p, .nil), r1) ∧ p ≠ [] ∧ p.length ≤ cap ∧
      p ++ r1.pending = r.pending ∧ r1.final = r.final := by
  obtain ⟨h1, h2, h3, _⟩ := readChunks_spec r.chunks cap hcap
  have h3 := h3 hp
  unfold Reader.Read
  rcases hrc : readChunks r.chunks cap with ⟨p, rest⟩
  rw [hrc] at h1 h2 h3
  simp only at h1 h2 h3
  cases p with
  | nil => exact absurd rfl h3
  | cons a as =>
    exact ⟨a :: as, { r with chunks := rest }, rfl, h3, h2, h1, rfl⟩

theorem Flush_ok (b : Writer) (herr : b.err = none) (hroom : b.wr.room = none)
    (hne : b.buf ≠ []) :
    b.Flush = (none, { b with buf := [], wr := { b.wr with data := b.wr.data ++ b.buf } }) := by
  have hlen : b.buf.length ≠ 0 := fun h => hne (List.length_eq_zero.mp h)
  unfold Writer.Flush File.Write
  simp [herr, hroom, hlen]

theorem fillLoop_spec (fuel : Nat) : ∀ (b : Writer) (r : Reader) (n : Nat),
    b.err = none → b.wr.room = none → r.final = none → 0 < b.size →
    b.buf.length ≤ b.size → r.pending.length < fuel →
    fillLoop fuel b r n =
      ((n + r.pending.length, none),
        { b with
          buf := (b.buf ++ r.pending).drop (b.size * ((b.buf ++ r.pending).length / b.size)),
          wr := { b.wr with
            data := b.wr.data ++
              (b.buf ++ r.pending).take (b.size * ((b.buf ++ r.pending).length / b.size)) } }) := by
  induction fuel with
  | zero => intro b r n _ _ _ _ _ hf; omega
  | succ fuel ih =>
    intro b r n herr hroom hfin hsize hbuf hf
    obtain ⟨buf, size, wr, err⟩ := b
    simp only at herr hroom hsize hbuf
    subst herr
    unfold fillLoop
    by_cases hfull : buf.length = size
    · -- the buffer is full: it is flushed first
      have hne : buf ≠ [] := by
        intro h; rw [h] at hfull; simp at hfull; omega
      have hav : (Writer.mk buf size wr none).Available = 0 := by
        simp [Writer.Available, hfull]
      rw [if_pos hav, Flush_ok _ rfl hroom hne]
      simp only
      have hcap : 0 < (Writer.mk [] size { wr with data := wr.data ++ buf } none).Available := by
        simp [Writer.Available, hsize]
      by_cases hp : r.pending = []
      · rw [Read_eof r _ hcap hfin hp]
        simp only [List.append_nil]
        have hav2 : (Writer.mk [] size { wr with data := wr.data ++ buf } none).Available ≠ 0 :=
          Nat.pos_iff_ne_zero.mp hcap
        rw [if_neg hav2]
        simp [hp, hfull, Nat.div_self hsize]
      · obtain ⟨p, r1, hread, hpne, hple, hpr, hfin1⟩ := Read_data r _ hcap hp
        rw [hread]
        simp only [List.nil_append]
        have hplen : 0 < p.length := List.length_pos.mpr hpne
        have hlen : r.pending.length = p.length + r1.pending.length := by
          rw [← hpr, List.length_append]
        have := ih (Writer.mk p size { wr with data := wr.data ++ buf } none) r1 (n + p.length)
          rfl hroom (hfin1.trans hfin) hsize (by simpa [Writer.Available] using hple) (by omega)
        rw [this]
        simp only [hpr]
        have hdiv : (buf ++ r.pending).length / size = r.pending.length / size + 1 := by
          rw [List.length_append, hfull, Nat.add_comm, Nat.add_div_right _ hsize]
        have hk : size * ((buf ++ r.pending).length / size)
            = buf.length + size * (r.pending.length / size) := by
          rw [hdiv, hfull, Nat.mul_add, Nat.mul_one, Nat.add_comm]
        rw [hk, List.take_append, List.drop_append, hlen]
        simp [Nat.add_assoc]
    · -- there is room in the buffer
      have hlt : buf.length < size := lt_of_le_of_ne hbuf hfull
      have hav : ¬ (Writer.mk buf size wr none).Available = 0 := by
        simp [Writer.Available]; omega
      rw [if_neg hav]
      simp only
      have hcap : 0 < (Writer.mk buf size wr none).Available := Nat.pos_of_ne_zero hav
      by_cases hp : r.pending = []
      · rw [Read_eof r _ hcap hfin hp]
        simp only [List.append_nil]
        rw [if_neg hav]
        simp [hp, Nat.div_eq_of_lt hlt]
      · obtain ⟨p, r1, hread, hpne, hple, hpr, hfin1⟩ := Read_data r _ hcap hp
        rw [hread]
        simp only
        have hplen : 0 < p.length := List.length_pos.mpr hpne
        have hlen : r.pending.length = p.length + r1.pending.length := by
          rw [← hpr, List.length_append]
        have hple2 : p.length ≤ size - buf.length := by
          simpa [Writer.Available] using hple
        have := ih (Writer.mk (buf ++ p) size wr none) r1 (n + p.length)
          rfl hroom (hfin1.trans hfin) hsize (by simp; omega) (by omega)
        rw [this]
        simp only [List.append_assoc, hpr, hlen]
        simp [Nat.add_assoc]

theorem copyLoop_spec (fuel : Nat) : ∀ (dst : File) (src : Reader) (n : Nat),
    dst.room = none → src.final = none → src.pending.length < fuel →
    copyLoop fuel dst src n =
      ((n + src.pending.length, none), { dst with data := dst.data ++ src.pending }) := by
  induction fuel with
  | zero => intro dst src n _ _ hf; omega
  | succ fuel ih =>
    intro dst src n hroom hfin hf
    unfold copyLoop
    by_cases hp : src.pending = []
    · rw [Read_eof src _ (by decide) hfin hp]
      simp [hp]
    · obtain ⟨p, r1, hread, hpne, _, hpr, hfin1⟩ := Read_data src 32768 (by decide) hp
      rw [hread]
      have hplen : 0 < p.length := List.length_pos.mpr hpne
      have hlen : src.pending.length = p.length + r1.pending.length := by
        rw [← hpr, List.length_append]
      have hw : dst.Write p = ((p.length, none), { dst with data := dst.data ++ p }) := by
        unfold File.Write
        simp [hroom]
      simp only [gt_iff_lt, hplen, if_true, hw, ne_eq, not_true_eq_false, if_false]
      rw [ih { dst with data := dst.data ++ p } r1 _ hroom (hfin1.trans hfin) (by omega)]
      simp [← hpr, Nat.add_assoc]

/-! ## The driver -/

/-- C1 — In every run of `main`, a call of `updateStoredHash` comes only after
`loadDatabaseIntoSDE` has returned nil; and in every run in which
`loadDatabaseIntoSDE` returns an error the process exits with code 1,
`updateStoredHash` is not called, and the marker table is what it was before
the run. -/
theorem main_update_only_after_load (cfg : Config) (w : World) :
    (∀ pre post h, (main cfg w).trace = pre ++ Event.call (.updateStoredHash h) :: post →
      Event.ret .loadDatabaseIntoSDE none ∈ pre) ∧
    (∀ e, Event.ret .loadDatabaseIntoSDE (some e) ∈ (main cfg w).trace →
      (main cfg w).exit = 1 ∧ (main cfg w).db.table = w.db.table ∧
      ∀ h, Event.call (.updateStoredHash h) ∉ (main cfg w).trace) := by
  refine ⟨fun pre post h hl => ?_, fun e => ?_⟩
  · rcases updateGuarded_split false _ pre post h (main_updateGuarded cfg w) hl with h1 | h1
    · simp at h1
    · exact h1
  · have ht := getStoredHash_table w.db
    show (fun r : Run => Event.ret .loadDatabaseIntoSDE (some e) ∈ r.trace →
      r.exit = 1 ∧ r.db.table = w.db.table ∧
      ∀ h, Event.call (.updateStoredHash h) ∉ r.trace) (main cfg w)
    unfold main
    repeat' split
    all_goals simp_all

/-- C2 — When, `sql.Open` having succeeded, `getLatestHash` and `getStoredHash`
both return the marker `A` without error, `main` logs that the SDE is already up to date and exits with
code 0; it calls none of `downloadSDE`, `decompressSDE`,
`loadDatabaseIntoSDE`, `updateStoredHash`, and the marker table is left as it
was. -/
theorem main_up_to_date (cfg : Config) (w : World) (A : GoString)
    (hopen : w.sqlOpenErr = none)
    (hl : getLatestHash w.hashGet = (A, none))
    (hs : (getStoredHash w.db).1 = (A, none)) :
    (main cfg w).exit = 0 ∧ Event.logUpToDate ∈ (main cfg w).trace ∧
    calls (main cfg w).trace = [.getLatestHash, .getStoredHash] ∧
    Event.call .downloadSDE ∉ (main cfg w).trace ∧
    Event.call .decompressSDE ∉ (main cfg w).trace ∧
    Event.call .loadDatabaseIntoSDE ∉ (main cfg w).trace ∧
    (∀ h, Event.call (.updateStoredHash h) ∉ (main cfg w).trace) ∧
    (main cfg w).db.table = w.db.table := by
  have ht := getStoredHash_table w.db
  show (fun r : Run => r.exit = 0 ∧ Event.logUpToDate ∈ r.trace ∧
    calls r.trace = [.getLatestHash, .getStoredHash] ∧
    Event.call .downloadSDE ∉ r.trace ∧
    Event.call .decompressSDE ∉ r.trace ∧
    Event.call .loadDatabaseIntoSDE ∉ r.trace ∧
    (∀ h, Event.call (.updateStoredHash h) ∉ r.trace) ∧
    r.db.table = w.db.table) (main cfg w)
  unfold main
  repeat' split
  all_goals simp_all [calls]

/-- C3 — When the remote marker `A` differs from the stored marker `B` and
the stages up to the load succeed (`sql.Open`, the two readers, `downloadSDE`,
`decompressSDE`, `loadDatabaseIntoSDE`), `main` calls `downloadSDE`,
`decompressSDE`, `loadDatabaseIntoSDE` and `updateStoredHash` once each, in
that order, the last with the remote marker `A`, whatever `updateStoredHash`
then returns. -/
theorem main_full_sequence (cfg : Config) (w : World) (A B : GoString)
    (hopen : w.sqlOpenErr = none)
    (hl : getLatestHash w.hashGet = (A, none))
    (hs : (getStoredHash w.db).1 = (B, none))
    (hne : A ≠ B)
    (hd : (downloadSDE w.download).2 = none)
    (hz : (decompressSDE w.disk).err = none)
    (hload : (loadDatabaseIntoSDE w.bash cfg.mysqlAddress cfg.mysqlPort cfg.mysqlUser
      cfg.mysqlPass cfg.mysqlDB).1 = none) :
    calls (main cfg w).trace =
      [.getLatestHash, .getStoredHash, .downloadSDE, .decompressSDE, .loadDatabaseIntoSDE,
        .updateStoredHash A] := by
  show (fun r : Run => calls r.trace =
      [.getLatestHash, .getStoredHash, .downloadSDE, .decompressSDE, .loadDatabaseIntoSDE,
        .updateStoredHash A]) (main cfg w)
  unfold main
  repeat' split
  all_goals simp_all [calls, Decompressed.err]

/-! ## The version checker -/

/-- C4 (as stated, refuted) — For the body "abc\n" `getLatestHash` returns
"abc\n", newline included, where the first whitespace-delimited token is
"abc"; for the body " abc" it returns the empty string, where that token is
"abc". -/
theorem getLatestHash_not_first_token :
    getLatestHash (.response ⟨200, .ok (bytes "abc\n")⟩) = (bytes "abc\n", none) ∧
    (10 : UInt8) ∈ bytes "abc\n" ∧ isSpace 10 = true ∧
    firstToken (bytes "abc\n") = bytes "abc" ∧
    getLatestHash (.response ⟨200, .ok (bytes " abc")⟩) = ([], none) ∧
    firstToken (bytes " abc") = bytes "abc" := by
  decide

/-- C4 (amended) — For every response body read without error,
`getLatestHash` returns, with a nil error, the part of the body before its
first space character (byte 32), the whole body when it has none: the marker
contains no space, and what follows it in the body is nothing or begins with a
space. -/
theorem getLatestHash_before_first_space (status : Nat) (body : GoString) :
    (getLatestHash (.response ⟨status, .ok body⟩)).2 = none ∧
    (32 : UInt8) ∉ (getLatestHash (.response ⟨status, .ok body⟩)).1 ∧
    ∃ rest, body = (getLatestHash (.response ⟨status, .ok body⟩)).1 ++ rest ∧
      (rest = [] ∨ rest.head? = some 32) := by
  have hm : (getLatestHash (.response ⟨status, .ok body⟩)).1
      = body.takeWhile (fun b => b != 32) := by
    simp only [getLatestHash]
    exact head_Split_space body
  refine ⟨rfl, ?_, body.dropWhile (fun b => b != 32), ?_, ?_⟩
  · rw [hm]
    intro hmem
    have := List.mem_takeWhile_imp hmem
    simp at this
  · rw [hm, List.takeWhile_append_dropWhile]
  · have hd := List.head?_dropWhile_not (fun b : UInt8 => b != 32) body
    cases hrest : body.dropWhile (fun b => b != 32) with
    | nil => exact Or.inl rfl
    | cons c cs =>
      rw [hrest] at hd
      simp only [List.head?_cons, bne_eq_false_iff_eq] at hd
      exact Or.inr (by simp [hd])

/-- C5 (as stated, refuted) — A response with status 404, which is not a
success status, and the body "Not Found": `getLatestHash` returns the marker
"Not" taken from that body, with a nil error. -/
theorem getLatestHash_non_success_status :
    ¬ (200 ≤ 404 ∧ 404 < 300) ∧
    getLatestHash (.response ⟨404, .ok (bytes "Not Found")⟩) = (bytes "Not", none) := by
  decide

/-- C5 (amended) — `getLatestHash` returns an error when the GET fails at the
transport level and when reading the response body fails; the status code is
not looked at: for every response, whatever its status, whose body is read
without error it returns a nil error and the marker taken from that body. -/
theorem getLatestHash_errors :
    (∀ e, getLatestHash (.failed e) = ([], some e)) ∧
    (∀ status e, getLatestHash (.response ⟨status, .error e⟩) = ([], some e)) ∧
    (∀ status body, getLatestHash (.response ⟨status, .ok body⟩)
      = ((Split body (bytes " ")).headD [], none)) :=
  ⟨fun _ => rfl, fun _ _ => rfl, fun _ _ => rfl⟩

/-! ## The stored marker -/

/-- C6 — When the statement fails, at `Prepare` or at `Query`, with a message
that contains "Table" and "doesn't exist", `getStoredHash` returns the empty
string and a nil error; `main` then does not abort: it logs the empty stored
hash and goes on to the comparison, which ends the run with "up to date" when
the remote marker is empty too and starts the download otherwise. -/
theorem getStoredHash_table_missing (m : GoString)
    (hT : Contains m (bytes "Table") = true)
    (hD : Contains m (bytes "doesn't exist") = true) :
    (∀ db : DB,
      (db.Prepare.1 = .error ⟨m⟩ ∨ (db.Prepare.1 = .ok () ∧ db.Prepare.2.Query.1 = .error ⟨m⟩)) →
      (getStoredHash db).1 = ([], none)) ∧
    (∀ (cfg : Config) (w : World) (hash : GoString),
      w.sqlOpenErr = none → getLatestHash w.hashGet = (hash, none) →
      (w.db.Prepare.1 = .error ⟨m⟩ ∨
        (w.db.Prepare.1 = .ok () ∧ w.db.Prepare.2.Query.1 = .error ⟨m⟩)) →
      Event.ret .getStoredHash none ∈ (main cfg w).trace ∧
      Event.logStoredHash [] ∈ (main cfg w).trace ∧
      (hash = [] → (main cfg w).exit = 0 ∧ Event.logUpToDate ∈ (main cfg w).trace) ∧
      (hash ≠ [] → Event.call .downloadSDE ∈ (main cfg w).trace)) := by
  have key : ∀ db : DB,
      (db.Prepare.1 = .error ⟨m⟩ ∨ (db.Prepare.1 = .ok () ∧ db.Prepare.2.Query.1 = .error ⟨m⟩)) →
      (getStoredHash db).1 = ([], none) := by
    intro db hfail
    rcases hfail with h1 | ⟨h1, h2⟩
    · rw [getStoredHash_prepare_error db _ h1]
      simp [hT, hD]
    · exact getStoredHash_query_error db _ h1 h2
  refine ⟨key, fun cfg w hash hopen hl hfail => ?_⟩
  have hs := key w.db hfail
  show (fun r : Run => Event.ret .getStoredHash none ∈ r.trace ∧
      Event.logStoredHash [] ∈ r.trace ∧
      (hash = [] → r.exit = 0 ∧ Event.logUpToDate ∈ r.trace) ∧
      (hash ≠ [] → Event.call .downloadSDE ∈ r.trace)) (main cfg w)
  unfold main
  repeat' split
  all_goals simp_all

/-- C7 (the code at the failing input) — `updateStoredHash` with the marker
"abc123": over a table of three rows and with no table at all, on a connection
where no round trip fails, it returns the error of the refused INSERT, not
nil, and leaves the marker table existing and empty; a following
`getStoredHash` returns the empty string, not "abc123"; and the first run of
`main` (remote marker "abc123", no table, every earlier stage succeeding) ends
with exit code 1 and the empty table. -/
theorem updateStoredHash_insert_refused :
    updateStoredHash ⟨some [some (bytes "0ld"), none, some (bytes "older")], []⟩ (bytes "abc123")
      = (some errUnknownColumn, ⟨some [], []⟩) ∧
    updateStoredHash ⟨none, []⟩ (bytes "abc123") = (some errUnknownColumn, ⟨some [], []⟩) ∧
    (getStoredHash ⟨some [], []⟩).1 = ([], none) ∧
    (main defaultConfig (sampleWorld "abc123  mysql-latest.tar.bz2\n" none none)).exit = 1 ∧
    (main defaultConfig (sampleWorld "abc123  mysql-latest.tar.bz2\n" none none)).db.table
      = some [] := by
  decide

/-- C9 (as stated, refuted) — With the connection refused at `Prepare`, a
failure whose message does not name a missing table, `getStoredHash` returns
that error, not nil. -/
theorem getStoredHash_returns_prepare_error :
    (DB.Prepare ⟨some [some (bytes "abc123")], [some errConnRefused]⟩).1
      = .error errConnRefused ∧
    Contains errConnRefused.msg (bytes "Table") = false ∧
    (getStoredHash ⟨some [some (bytes "abc123")], [some errConnRefused]⟩).1
      = ([], some errConnRefused) := by
  decide

/-- C9 (amended) — `getStoredHash` returns the empty string with a nil error
for every failure of running the query and of scanning the row, whatever the
message, and for a failure of preparing the statement whose message contains
"Table" and "doesn't exist"; a failure of preparing the statement with any
other message is returned as the error, and that is the only way it returns a
non-nil error. -/
theorem getStoredHash_swallows (db : DB) :
    (∀ e, db.Prepare.1 = .error e →
      (getStoredHash db).1 =
        ([], if Contains e.msg (bytes "Table") && Contains e.msg (bytes "doesn't exist")
          then none else some e)) ∧
    (db.Prepare.1 = .ok () → ∀ e, db.Prepare.2.Query.1 = .error e →
      (getStoredHash db).1 = ([], none)) ∧
    (db.Prepare.1 = .ok () → ∀ rows, db.Prepare.2.Query.1 = .ok rows → none ∈ rows →
      (getStoredHash db).1 = ([], none)) ∧
    (∀ e, (getStoredHash db).1.2 = some e →
      db.Prepare.1 = .error e ∧
      ¬ (Contains e.msg (bytes "Table") = true ∧ Contains e.msg (bytes "doesn't exist") = true)) := by
  refine ⟨getStoredHash_prepare_error db,
    fun hp e hq => getStoredHash_query_error db e hp hq, ?_, ?_⟩
  · intro hp rows hq hmem
    rw [getStoredHash_rows db rows hp hq]
    have hlen := Query_rows _ rows hq
    match rows, hlen, hmem with
    | [none], _, _ => simp [scanRows]
    | [some v], _, hmem => simp at hmem
  · intro e he
    rcases hp : db.Prepare.1 with e0 | u
    · rw [getStoredHash_prepare_error db e0 hp] at he
      by_cases hc : (Contains e0.msg (bytes "Table") && Contains e0.msg (bytes "doesn't exist")) = true
      · simp [hc] at he
      · simp only [hc] at he
        simp only [Bool.false_eq_true, if_false, Option.some.injEq] at he
        subst he
        exact ⟨rfl, by simpa using hc⟩
    · cases u
      rcases hq : db.Prepare.2.Query.1 with e1 | rows
      · rw [getStoredHash_query_error db e1 hp hq] at he
        simp at he
      · rw [getStoredHash_rows db rows hp hq] at he
        split at he <;> simp at he

/-! ## Decompression -/

theorem decompressSDE_err (env : DecompressEnv) :
    (decompressSDE env).err =
      match env.openErr, env.statErr, env.createErr with
      | some e, _, _ => some e
      | none, some e, _ => some e
      | none, none, some e => some e
      | none, none, none => none := by
  unfold decompressSDE
  cases env.openErr <;> cases env.statErr <;> cases env.createErr <;> rfl

/-- With no failure anywhere and the copy going through the buffer,
`decompressSDE` logs the full length of the data, and `sde_dump.sql` receives
only the whole buffers of 4096 bytes: the rest stays in the buffer. -/
theorem decompressSDE_buffered (env : DecompressEnv)
    (ho : env.openErr = none) (hs : env.statErr = none) (hc : env.createErr = none)
    (hfin : env.cr.final = none) (hroom : env.room = none) (hrf : env.fileReadFrom = false) :
    decompressSDE env =
      .done env.cr.pending.length
        (env.cr.pending.take (4096 * (env.cr.pending.length / 4096))) := by
  unfold decompressSDE
  simp only [ho, hs, hc, Copy, Writer.ReadFrom, NewWriter, hrf, Bool.and_false]
  rw [fillLoop_spec _ _ _ _ rfl hroom hfin (by simp) (by simp) (by omega)]
  simp

/-- With no failure anywhere and the copy passed on to the file's own
`ReadFrom`, `sde_dump.sql` receives all the data. -/
theorem decompressSDE_unbuffered (env : DecompressEnv)
    (ho : env.openErr = none) (hs : env.statErr = none) (hc : env.createErr = none)
    (hfin : env.cr.final = none) (hroom : env.room = none) (hrf : env.fileReadFrom = true) :
    decompressSDE env = .done env.cr.pending.length env.cr.pending := by
  unfold decompressSDE
  simp only [ho, hs, hc, Copy, Writer.ReadFrom, NewWriter, hrf, Writer.Buffered, File.ReadFrom]
  rw [copyLoop_spec _ _ _ _ hroom hfin (by omega)]
  simp

/-- C8 (the code at the failing inputs) — With the files opened and created
without error: when a read of the compressed file fails during the copy,
`io.Copy` returns that error and `decompressSDE` returns nil; when the device
is full, `io.Copy` returns the write error and `decompressSDE` returns nil;
and `main`, far from aborting, goes on to call `loadDatabaseIntoSDE`. -/
theorem decompressSDE_drops_copy_error :
    (Copy (NewWriter ⟨[], none, false⟩) ⟨[bytes "CREATE"], some errReadInput⟩).1
      = (6, some errReadInput) ∧
    (decompressSDE ⟨none, none, none, ⟨[bytes "CREATE"], some errReadInput⟩, none, false⟩).err
      = none ∧
    (Copy (NewWriter ⟨[], some 2, true⟩) ⟨[bytes "CREATE"], none⟩).1 = (2, some errNoSpace) ∧
    (decompressSDE ⟨none, none, none, ⟨[bytes "CREATE"], none⟩, some 2, true⟩).err = none ∧
    Event.call .loadDatabaseIntoSDE ∈ (main defaultConfig (sampleWorldOnDisk
      ⟨none, none, none, ⟨[bytes "CREATE"], some errReadInput⟩, none, false⟩)).trace := by
  decide

/-- C10 (the code at the failing input) — A stream that decompresses without
error to the 6 bytes "CREATE", onto a device with room for 2 bytes: the copy
stops at the failed write, and `decompressSDE` logs "Wrote 2 bytes" and
returns nil with `sde_dump.sql` holding "CR", not the decompressed data. -/
theorem decompressSDE_short_file :
    Reader.pending ⟨[bytes "CREATE"], none⟩ = bytes "CREATE" ∧
    (Copy (NewWriter ⟨[], some 2, true⟩) ⟨[bytes "CREATE"], none⟩).1 = (2, some errNoSpace) ∧
    decompressSDE ⟨none, none, none, ⟨[bytes "CREATE"], none⟩, some 2, true⟩
      = .done 2 (bytes "CR") ∧
    (decompressSDE ⟨none, none, none, ⟨[bytes "CREATE"], none⟩, some 2, true⟩).err = none ∧
    bytes "CR" ≠ bytes "CREATE" := by
  decide

/-! ## Instances -/

/-- A run in which the `mysql` client exits with status 1: exit code 1, the
old marker still stored. -/
theorem main_update_only_after_load_witness :
    Event.ret .loadDatabaseIntoSDE (some errExitStatus) ∈
      (main defaultConfig (sampleWorld "abc123  mysql-latest.tar.bz2\n"
        (some [some (bytes "0ld")]) (some errExitStatus))).trace ∧
    (main defaultConfig (sampleWorld "abc123  mysql-latest.tar.bz2\n"
        (some [some (bytes "0ld")]) (some errExitStatus))).exit = 1 ∧
    (main defaultConfig (sampleWorld "abc123  mysql-latest.tar.bz2\n"
        (some [some (bytes "0ld")]) (some errExitStatus))).db.table = some [some (bytes "0ld")] :=
  ⟨by decide,
    ((main_update_only_after_load defaultConfig _).2 errExitStatus (by decide)).1,
    ((main_update_only_after_load defaultConfig _).2 errExitStatus (by decide)).2.1⟩

/-- A run with the marker "abc123" both remote and stored. -/
theorem main_up_to_date_witness :
    (getStoredHash (sampleWorld "abc123  mysql-latest.tar.bz2\n"
      (some [some (bytes "abc123")]) none).db).1 = (bytes "abc123", none) ∧
    (main defaultConfig (sampleWorld "abc123  mysql-latest.tar.bz2\n"
      (some [some (bytes "abc123")]) none)).exit = 0 :=
  ⟨by decide,
    (main_up_to_date defaultConfig (sampleWorld "abc123  mysql-latest.tar.bz2\n"
      (some [some (bytes "abc123")]) none) (bytes "abc123")
      (by decide) (by decide) (by decide)).1⟩

/-- A first run: remote marker "abc123", no marker table. -/
theorem main_full_sequence_witness :
    bytes "abc123" ≠ [] ∧
    calls (main defaultConfig (sampleWorld "abc123  mysql-latest.tar.bz2\n" none none)).trace =
      [.getLatestHash, .getStoredHash, .downloadSDE, .decompressSDE, .loadDatabaseIntoSDE,
        .updateStoredHash (bytes "abc123")] :=
  ⟨by decide,
    main_full_sequence defaultConfig (sampleWorld "abc123  mysql-latest.tar.bz2\n" none none)
      (bytes "abc123") [] (by decide) (by decide) (by decide) (by decide) (by decide)
      (by decide) (by decide)⟩

/-- The marker table is absent and the server says so at `Prepare`. -/
theorem getStoredHash_table_missing_witness :
    Contains errNoSuchTable.msg (bytes "Table") = true ∧
    Contains errNoSuchTable.msg (bytes "doesn't exist") = true ∧
    (DB.Prepare ⟨none, []⟩).1 = .error errNoSuchTable ∧
    (getStoredHash ⟨none, []⟩).1 = ([], none) ∧
    Event.call .downloadSDE ∈
      (main defaultConfig (sampleWorld "abc123  mysql-latest.tar.bz2\n" none none)).trace :=
  ⟨by decide, by decide, by decide,
    (getStoredHash_table_missing errNoSuchTable.msg (by decide) (by decide)).1 ⟨none, []⟩
      (Or.inl (by decide)),
    ((getStoredHash_table_missing errNoSuchTable.msg (by decide) (by decide)).2 defaultConfig
      (sampleWorld "abc123  mysql-latest.tar.bz2\n" none none) (bytes "abc123")
      (by decide) (by decide) (Or.inl (by decide))).2.2.2 (by decide)⟩

/-- The connection breaks between `Prepare` and `Query`. -/
theorem getStoredHash_swallows_witness :
    (DB.Prepare ⟨some [some (bytes "abc123")], [none, some errConnRefused]⟩).1 = .ok () ∧
    (getStoredHash ⟨some [some (bytes "abc123")], [none, some errConnRefused]⟩).1 = ([], none) :=
  ⟨by decide,
    (getStoredHash_swallows ⟨some [some (bytes "abc123")], [none, some errConnRefused]⟩).2.1
      (by decide) errConnRefused (by decide)⟩

end EveSDE
